import Mathlib

/-!
Verification development for the easy-ansi styled-string template compiler.

The Rust sources are shallowly embedded over `List Char`:

* strings are lists of characters and positions are character indices
  (the Rust code slices by byte index via `char_indices`; on the ASCII
  inputs the directive grammar manipulates, byte index and character
  index coincide);
* the `CharIndices` iterator is the suffix of the indexed character
  list that has not been consumed yet; Rust's `chars.next()` is the
  head of that suffix;
* loops are written with an explicit fuel argument so every definition
  is structurally recursive and computable by the kernel; the fuel
  passed at each call site exceeds the number of loop iterations, which
  is bounded by the length of the remaining input;
* a Rust panic (`assert!`, `expect`, `unreachable!`) is modelled as an
  error value carrying the panic message, kept distinct from the
  `Option::None` failure that `parse_string` can return.
-/

/-- `&s[a..b]` on character positions: the characters with indices in `[a, b)`. -/
def sliceList (s : List Char) (a b : Nat) : List Char :=
  (s.take b).drop a

/-- The whitespace characters skipped after a line-continuation escape
(`' ' | '\n' | '\r' | '\t'` in `parse.rs`). -/
def wsChar (c : Char) : Bool :=
  c = ' ' || c = '\n' || c = '\r' || c = '\t'

/-- Value of one digit character, as in Rust's `from_str_radix`:
`0-9`, then `a-z` and `A-Z`; a digit must be below the radix. -/
def digitValue (radix : Nat) (c : Char) : Option Nat :=
  let v : Option Nat :=
    if '0' ≤ c ∧ c ≤ '9' then some (c.toNat - 48)
    else if 'a' ≤ c ∧ c ≤ 'z' then some (c.toNat - 87)
    else if 'A' ≤ c ∧ c ≤ 'Z' then some (c.toNat - 55)
    else none
  v.bind fun v => if v < radix then some v else none

/-- Rust's `uN::from_str_radix` / `uN::from_str` on a character list:
an optional leading `+`, then at least one digit of the radix; fails on
an empty digit string, an invalid digit, or a value above `maxVal`
(the overflow failure of the fixed-width integer type). -/
def fromStrRadix (radix maxVal : Nat) (l : List Char) : Option Nat :=
  let l := match l with
    | '+' :: r => r
    | _ => l
  match l with
  | [] => none
  | _ =>
    (l.foldlM (fun acc c => (digitValue radix c).map fun d => acc * radix + d) 0).bind
      fun v => if v ≤ maxVal then some v else none

/-- Rust's `char::from_u32`: succeeds exactly on Unicode scalar values. -/
def charFromU32 (n : Nat) : Option Char :=
  if n < 0xd800 ∨ (0xdfff < n ∧ n < 0x110000) then
    some (Char.ofNat n)
  else
    none

/-- `impl AppendToString for u8` in `parse.rs`: appends the decimal
digits of a code (0-255) to a string, using `/100`, `%100`, `/10`, `%10`
exactly as the source does. -/
def append_to (n : Nat) (s : String) : String :=
  if 10 ≤ n then
    if 100 ≤ n then
      (((s.push (Char.ofNat (48 + n / 100))).push
          (Char.ofNat (48 + (n % 100) / 10))).push
          (Char.ofNat (48 + (n % 100) % 10)))
    else
      ((s.push (Char.ofNat (48 + n / 10))).push (Char.ofNat (48 + n % 10)))
  else
    s.push (Char.ofNat (48 + n))

/-- `parse_add_style` in `parse.rs`: the add-table of style keywords. -/
def parse_add_style (s : List Char) : Option Nat :=
  if s = "Reset".data then some 0
  else if s = "Bold".data then some 1
  else if s = "Dim".data then some 2
  else if s = "Italic".data then some 3
  else if s = "Underline".data then some 4
  else if s = "Blinking".data then some 5
  else if s = "Inverse".data then some 7
  else if s = "Hidden".data then some 8
  else if s = "Strikethrough".data then some 9
  else none

/-- `parse_sub_style` in `parse.rs`: the remove-table of style keywords. -/
def parse_sub_style (s : List Char) : Option Nat :=
  if s = "Bold".data then some 22
  else if s = "Dim".data then some 22
  else if s = "Italic".data then some 23
  else if s = "Underline".data then some 24
  else if s = "Blinking".data then some 25
  else if s = "Inverse".data then some 27
  else if s = "Hidden".data then some 28
  else if s = "Strikethrough".data then some 29
  else none

/-- `parse_color_simple` in `parse.rs`: the named 16-color table. -/
def parse_color_simple (s : List Char) : Option Nat :=
  if s = "BlackFg".data then some 30
  else if s = "RedFg".data then some 31
  else if s = "GreenFg".data then some 32
  else if s = "YellowFg".data then some 33
  else if s = "BlueFg".data then some 34
  else if s = "MagentaFg".data then some 35
  else if s = "CyanFg".data then some 36
  else if s = "WhiteFg".data then some 37
  else if s = "DefaultFg".data then some 39
  else if s = "BlackBg".data then some 40
  else if s = "RedBg".data then some 41
  else if s = "GreenBg".data then some 42
  else if s = "YellowBg".data then some 43
  else if s = "BlueBg".data then some 44
  else if s = "MagentaBg".data then some 45
  else if s = "CyanBg".data then some 46
  else if s = "WhiteBg".data then some 47
  else if s = "DefaultBg".data then some 49
  else none

/-- `parse_color` in `parse.rs`.  A named color appends its table code;
otherwise a `f`/`b` prefix chooses `38;`/`48;`, the wrapping pair picks
the decimal (`(..)`) or hex (`[..]`) grammar, and the payload between
the second and last characters is decoded.  Returns the extended buffer,
or `none` for a malformed payload (the caller's `assert!` then panics). -/
def parse_color (s : List Char) (buf : String) : Option String :=
  match parse_color_simple s with
  | some n => some (append_to n buf)
  | none =>
    match s with
    | [] => none
    | c0 :: rest =>
      (match c0 with
        | 'f' => some "38;"
        | 'b' => some "48;"
        | _ => none).bind fun pfx =>
      match rest with
      | [] => none
      | left :: mid =>
        match mid.getLast? with
        | none => none
        | some right =>
          let inner := mid.dropLast
          match left, right with
          | '(', ')' =>
            match (inner.splitOn ',').mapM (fromStrRadix 10 255) with
            | some [n] => some (append_to n (buf ++ pfx ++ "5;"))
            | some [n1, n2, n3] =>
              some (append_to n3
                ((append_to n2 ((append_to n1 (buf ++ pfx ++ "2;")) ++ ";")) ++ ";"))
            | _ => none
          | '[', ']' =>
            match inner.length with
            | 2 =>
              (fromStrRadix 16 255 inner).map fun n =>
                append_to n (buf ++ pfx ++ "5;")
            | 6 =>
              (fromStrRadix 16 255 (sliceList inner 0 2)).bind fun n1 =>
              (fromStrRadix 16 255 (sliceList inner 2 4)).bind fun n2 =>
              (fromStrRadix 16 255 (sliceList inner 4 6)).map fun n3 =>
                append_to n3
                  ((append_to n2 ((append_to n1 (buf ++ pfx ++ "2;")) ++ ";")) ++ ";")
            | _ => none
          | _, _ => none

/-- `parse_sgr` in `parse.rs`: dispatches a directive segment on the
delimiter symbol that introduced it. -/
def parse_sgr (ch : Char) (seg : List Char) (buf : String) : Option String :=
  match ch with
  | '+' => (parse_add_style seg).map fun n => append_to n buf
  | '-' => (parse_sub_style seg).map fun n => append_to n buf
  | '#' => parse_color seg buf
  | _ => none

/-- The `Delim` enum local to `parse_param` in `parse.rs`. -/
inductive Delim where
  | standard
  | andD
  | endD
deriving DecidableEq

/-- The `next_delim` closure in `parse_param`: classifies a character as
a chain delimiter (`+ - #`), the passthrough delimiter (`&`), or the
closing brace, and returns its position and character. -/
def next_delim (p : Nat × Char) : Option (Delim × Nat × Char) :=
  match p.2 with
  | '+' => some (Delim.standard, p.1, p.2)
  | '-' => some (Delim.standard, p.1, p.2)
  | '#' => some (Delim.standard, p.1, p.2)
  | '&' => some (Delim.andD, p.1, p.2)
  | '}' => some (Delim.endD, p.1, p.2)
  | _ => none

/-- `chars.find_map(next_delim)`: scans the remaining iterator for the
first delimiter, consuming every character up to and including it;
returns the find together with the iterator state after it. -/
def findMapDelim : List (Nat × Char) → Option ((Delim × Nat × Char) × List (Nat × Char))
  | [] => none
  | p :: rest =>
    match next_delim p with
    | some d => some (d, rest)
    | none => findMapDelim rest

/-- The `while let Some(..) = chars.find_map(next_delim)` loop of
`parse_param`.  State: the remaining iterator, the delimiter class of the
directive being accumulated, the delimiter character `ch`, its position
`i`, and the output buffer.  For a `+ - #` (or `}`) directive the segment
`s[i+1..end]` is resolved through `parse_sgr` (a failure is the
`Invalid keyword` panic); for `&` the last buffered character (the chain
separator, or the `[` of a freshly opened escape prefix) is popped, the
sequence is closed with `m`, the fragment is re-emitted in braces, and a
new `ESC[` prefix is opened unless the chain ends.  Each iteration then
pushes a `;` separator.  Returns the buffer, the final delimiter
character, and the iterator state after the loop. -/
def paramLoop (s : List Char) :
    Nat → List (Nat × Char) → Delim → Char → Nat → String →
    Except String (String × Char × List (Nat × Char))
  | 0, _, _, _, _, _ => Except.error "fuel exhausted"
  | fuel + 1, chars, delim, ch, i, buf =>
    match findMapDelim chars with
    | none => Except.ok (buf, ch, [])
    | some ((nd, endI, nextCh), rest) =>
      let start := i + 1
      let seg := sliceList s start endI
      if delim = Delim.standard ∨ delim = Delim.endD then
        match parse_sgr ch seg buf with
        | none => Except.error ("Invalid keyword: " ++ String.mk seg)
        | some buf =>
          let buf := buf ++ ";"
          if nd = Delim.endD then Except.ok (buf, nextCh, rest)
          else paramLoop s fuel rest nd nextCh endI buf
      else
        let buf := buf.dropRight 1 ++ "m\x7b" ++ String.mk seg ++ "\x7d"
        let buf := if nd ≠ Delim.endD then buf ++ "\x1b[" else buf
        let buf := buf ++ ";"
        if nd = Delim.endD then Except.ok (buf, nextCh, rest)
        else paramLoop s fuel rest nd nextCh endI buf

/-- The tail of `parse_param` once a directive chain is entered: the
initial delimiter class of `ch` (the `unreachable!` arm is modelled as
a panic), the `ESC[` prefix, the delimiter loop, the final pop and `m`,
the `Missing close bracket` assertion, and the re-emission of the
reserved leading name captured in `output`. -/
def parse_param_chain (s : List Char) (chars : List (Nat × Char))
    (output : Option (Nat × Nat)) (ch : Char) (i : Nat) (buf : String) :
    Except String (String × List (Nat × Char)) :=
  let delim0 : Except String Delim :=
    match ch with
    | '+' => Except.ok Delim.standard
    | '-' => Except.ok Delim.standard
    | '#' => Except.ok Delim.standard
    | '&' => Except.ok Delim.andD
    | '}' => Except.ok Delim.endD
    | _ => Except.error "internal error: entered unreachable code"
  match delim0 with
  | Except.error e => Except.error e
  | Except.ok delim =>
    match paramLoop s (chars.length + 1) chars delim ch i (buf ++ "\x1b[") with
    | Except.error e => Except.error e
    | Except.ok (buf, ch, chars) =>
      let buf := buf.dropRight 1 ++ "m"
      if ch = '}' then
        match output with
        | some (a, b) =>
          Except.ok (buf ++ "\x7b" ++ String.mk (sliceList s a b) ++ "\x7d", chars)
        | none => Except.ok (buf, chars)
      else
        Except.error "Missing close bracket"

/-- `parse_param` in `parse.rs`.  `l` is the iterator just after the
opening `{`, so its head is the `next_char` argument of the source
function.  A `{` at end of input appends a lone `\x7b`; `\x7b\x7b` and
`\x7b\x7d` are appended verbatim; a leading `+ - #` starts a chain with
no reserved name; otherwise the text up to the first delimiter is a
name — if that delimiter is `}` the whole group is re-emitted verbatim
as a passthrough, if no delimiter exists the rest of the source from
the opening brace is appended verbatim, and otherwise the chain starts
with the name reserved for the end.  An error is a panic message. -/
def parse_param (s : List Char) (l : List (Nat × Char)) (buf : String) :
    Except String (String × List (Nat × Char)) :=
  match l with
  | [] => Except.ok (buf ++ "\x7b", [])
  | (i, ch) :: rest =>
    match ch with
    | '{' => Except.ok (buf ++ "\x7b\x7b", rest)
    | '}' => Except.ok (buf ++ "\x7b\x7d", rest)
    | _ =>
      if ch = '+' ∨ ch = '-' ∨ ch = '#' then
        parse_param_chain s rest none ch i buf
      else
        match findMapDelim rest with
        | none => Except.ok (buf ++ String.mk (s.drop (i - 1)), [])
        | some ((d, endI, nextCh), r2) =>
          if d = Delim.endD then
            Except.ok (buf ++ "\x7b" ++ String.mk (sliceList s i endI) ++ "\x7d", r2)
          else
            parse_param_chain s r2 (some (i, endI)) nextCh endI buf

/-- `parse_7bit` in `parse.rs`: consumes two characters via
`chars.nth(1)`, then decodes the slice `s[end-2..=end]` as hex and
converts it through `char::from_u32`. -/
def parse_7bit (chars : List (Nat × Char)) (s : List Char) :
    Option (Char × List (Nat × Char)) :=
  match chars with
  | _ :: (endI, _) :: rest =>
    (fromStrRadix 16 4294967295 (sliceList s (endI - 2) (endI + 1))).bind fun v =>
      (charFromU32 v).map fun c => (c, rest)
  | _ => none

/-- `chars.find(|c| c.1 == '\x7d')`: consumes up to and including the
first closing brace, returning its position and the iterator after it. -/
def findCloseBrace : List (Nat × Char) → Option (Nat × List (Nat × Char))
  | [] => none
  | (i, c) :: rest => if c = '}' then some (i, rest) else findCloseBrace rest

/-- `parse_24bit` in `parse.rs`: `chars.nth(1)` consumes the `\x7b` and
the first payload character (whose position is `start`), the closing
brace is found, and `s[start..end]` is decoded as a hex scalar value. -/
def parse_24bit (chars : List (Nat × Char)) (s : List Char) :
    Option (Char × List (Nat × Char)) :=
  match chars with
  | _ :: (start, _) :: rest =>
    match findCloseBrace rest with
    | none => none
    | some (endI, rest2) =>
      (fromStrRadix 16 4294967295 (sliceList s start endI)).bind fun v =>
        (charFromU32 v).map fun c => (c, rest2)
  | _ => none

/-- Result of `parse_string`: the compiled text, the `Option::None`
failure (an invalid escape), or a panic with its message. -/
inductive PResult where
  | ok (s : String)
  | err
  | panicked (msg : String)
deriving DecidableEq

/-- The `'outer` loop of `parse_string` in `parse.rs`.  The head of `l`
is the current `next` character; escapes are resolved (with the
`expect` on a trailing backslash modelled as a panic), `{` enters
`parse_param`, a bare `}` doubles to `\x7d\x7d` when followed by `}` and
otherwise is pushed alone while the following character is consumed and
discarded, and any other character is copied. -/
def psLoop (s : List Char) : Nat → List (Nat × Char) → String → PResult
  | 0, _, _ => PResult.panicked "fuel exhausted"
  | _ + 1, [], buf => PResult.ok buf
  | fuel + 1, (_, ch) :: rest, buf =>
    match ch with
    | '\\' =>
      match rest with
      | [] => PResult.panicked "Unwrapping char following escape failed, should never fail"
      | (_, e) :: rest2 =>
        match e with
        | '\'' => psLoop s fuel rest2 (buf.push '\'')
        | '"' => psLoop s fuel rest2 (buf.push '"')
        | 'x' =>
          match parse_7bit rest2 s with
          | none => PResult.err
          | some (c, rest3) => psLoop s fuel rest3 (buf.push c)
        | 'n' => psLoop s fuel rest2 (buf.push '\n')
        | 'r' => psLoop s fuel rest2 (buf.push '\r')
        | 't' => psLoop s fuel rest2 (buf.push '\t')
        | '\\' => psLoop s fuel rest2 (buf.push '\\')
        | '0' => psLoop s fuel rest2 (buf.push (Char.ofNat 0))
        | 'u' =>
          match parse_24bit rest2 s with
          | none => PResult.err
          | some (c, rest3) => psLoop s fuel rest3 (buf.push c)
        | '\n' => psLoop s fuel (rest2.dropWhile fun p => wsChar p.2) buf
        | _ => PResult.err
    | '{' =>
      match parse_param s rest buf with
      | Except.error msg => PResult.panicked msg
      | Except.ok (buf2, rest2) => psLoop s fuel rest2 buf2
    | '}' =>
      match rest with
      | (_, '}') :: r2 => psLoop s fuel r2 (buf ++ "\x7d\x7d")
      | _ :: r2 => psLoop s fuel r2 (buf.push '}')
      | [] => psLoop s fuel [] (buf.push '}')
    | c => psLoop s fuel rest (buf.push c)

/-- `parse_string` in `parse.rs`: runs the outer loop over the indexed
characters of the template with an empty buffer. -/
def parse_string (t : List Char) : PResult :=
  psLoop t (t.length + 1) t.enum ""

/-- `UnwrappedLiteral` in `parse.rs`. -/
inductive UnwrappedLiteral where
  | str (s : List Char)
  | rawString (s : List Char) (n : Nat)
deriving DecidableEq

/-- Rust's `str::strip_prefix` with a one-character pattern. -/
def stripFirstChar (c : Char) (l : List Char) : Option (List Char) :=
  match l with
  | [] => none
  | x :: xs => if x = c then some xs else none

/-- Rust's `str::strip_suffix` with a one-character pattern. -/
def stripLastChar (c : Char) (l : List Char) : Option (List Char) :=
  if l.getLast? = some c then some l.dropLast else none

/-- Rust's `str::trim_matches` with a one-character pattern: removes
every occurrence of `c` from both ends. -/
def trimMatches (c : Char) (l : List Char) : List Char :=
  ((l.dropWhile (· = c)).reverse.dropWhile (· = c)).reverse

/-- `unwrap_string` in `parse.rs`: a literal starting with `r` has its
hash fences trimmed (half the trimmed length is the fence count) and
its quotes stripped; otherwise just the quotes are stripped. -/
def unwrap_string (s : List Char) : Option UnwrappedLiteral :=
  match s with
  | 'r' :: rest =>
    let len := rest.length
    let t := trimMatches '#' rest
    let diff := len - t.length
    (stripFirstChar '"' t).bind fun t2 =>
      (stripLastChar '"' t2).map fun body => UnwrappedLiteral.rawString body (diff / 2)
  | _ =>
    (stripFirstChar '"' s).bind fun t =>
      (stripLastChar '"' t).map UnwrappedLiteral.str

/-- `parse_raw_string` in `parse.rs`: re-wraps a raw string body with
`r`, `i` hashes, quotes, and `i` closing hashes. -/
def parse_raw_string (s : List Char) (i : Nat) : List Char :=
  'r' :: List.replicate i '#' ++ '"' :: s ++ '"' :: List.replicate i '#'

namespace lib

/-- `parse_7bit` in `macros/src/lib.rs`: reads exactly the next two
characters, decodes them as hex, and converts through `char::from_u32`. -/
def parse_7bit (chars : List Char) : Option (Char × List Char) :=
  match chars with
  | a :: b :: rest =>
    (fromStrRadix 16 4294967295 [a, b]).bind fun v =>
      (charFromU32 v).map fun c => (c, rest)
  | _ => none

end lib

/-- `SGRBuilder::write_to` in `writing.rs`, with the writer modelled as
the string it has accumulated: an empty code buffer writes nothing;
otherwise `ESC[` is written, then the first code, then `;` and each
further code, the buffer is cleared, and `m` is written.  Returns the
written text and the buffer state after the call. -/
def write_to (b : List Nat) : String × List Nat :=
  match b with
  | [] => ("", [])
  | c :: rest =>
    ((rest.foldl (fun acc code => acc ++ ";" ++ Nat.repr code) ("\x1b[" ++ Nat.repr c))
      ++ "m", [])

/-- Specification-side rendering of a code list: decimal texts joined
by single `;` separators with no trailing separator. -/
def sepJoin : List String → String
  | [] => ""
  | [x] => x
  | x :: xs => x ++ ";" ++ sepJoin xs

/-- Tail form of `sepJoin`: every element preceded by a `;`. -/
def semiTail : List String → String
  | [] => ""
  | x :: xs => ";" ++ x ++ semiTail xs

example : parse_color "b[1f]".data "" = some "48;5;31" := by decide
example : parse_color "f(170,187,204)".data "" = some "38;2;170;187;204" := by decide
example : parse_sgr '+' "Bold".data "" = some "1" := by decide
example : parse_string "abc".data = PResult.ok "abc" := by decide
example : parse_string "\x7b+Bold\x7d".data = PResult.ok "\x1b[1m" := by decide
example : parse_string "\x7b+Bold&name-Dim\x7d".data =
    PResult.ok "\x1b[1m\x7bname\x7d\x1b[;22m" := by decide
example : parse_string "\x7b+Sparkle\x7d".data =
    PResult.panicked "Invalid keyword: Sparkle" := by decide
example : parse_string "\x7b+Bold".data =
    PResult.panicked "Missing close bracket" := by decide
example : parse_string "\x7bname".data = PResult.ok "\x7bname" := by decide
example : parse_string "\x7b\x7b".data = PResult.ok "\x7b\x7b" := by decide
example : parse_string "\\x41".data = PResult.err := by decide
example : parse_string "\x7bname\x7d".data = PResult.ok "\x7bname\x7d" := by decide

/-! ### Helper lemmas -/

theorem enumFrom_map_snd {α : Type} : ∀ (n : Nat) (l : List α),
    (List.enumFrom n l).map Prod.snd = l
  | _, [] => rfl
  | n, a :: l => by
    simp only [List.enumFrom_cons, List.map_cons]
    exact congrArg (a :: ·) (enumFrom_map_snd (n + 1) l)

theorem snd_mem_of_mem_enum {α : Type} {p : Nat × α} {l : List α}
    (h : p ∈ l.enum) : p.2 ∈ l := by
  have := List.mem_map_of_mem Prod.snd h
  rwa [show l.enum = List.enumFrom 0 l from rfl, enumFrom_map_snd] at this

/-- One step of `psLoop` on a character that is not a backslash and not
a brace: the character is copied to the buffer. -/
theorem psLoop_plain_step (s : List Char) (f : Nat) (i : Nat) (c : Char)
    (rest : List (Nat × Char)) (buf : String)
    (h1 : c ≠ '\\') (h2 : c ≠ '{') (h3 : c ≠ '}') :
    psLoop s (f + 1) ((i, c) :: rest) buf = psLoop s f rest (buf.push c) := by
  simp only [psLoop]

/-- Running `psLoop` over characters that contain no brace and no
backslash copies them verbatim. -/
theorem psLoop_plain (s : List Char) : ∀ (fuel : Nat) (l : List (Nat × Char)) (buf : String),
    l.length < fuel → (∀ p ∈ l, p.2 ≠ '\\' ∧ p.2 ≠ '{' ∧ p.2 ≠ '}') →
    psLoop s fuel l buf = PResult.ok (buf ++ String.mk (l.map Prod.snd)) := by
  intro fuel
  induction fuel with
  | zero => intro l buf h _; omega
  | succ f ih =>
    intro l buf hlen hplain
    match l with
    | [] =>
      show PResult.ok buf = _
      apply congrArg PResult.ok
      apply String.ext
      simp
    | (i, c) :: rest =>
      have hc := hplain (i, c) (List.mem_cons_self _ _)
      rw [psLoop_plain_step s f i c rest buf hc.1 hc.2.1 hc.2.2]
      rw [ih rest (buf.push c) (by simp at hlen ⊢; omega)
        (fun p hp => hplain p (List.mem_cons_of_mem _ hp))]
      apply congrArg PResult.ok
      apply String.ext
      simp [String.push]

theorem append_to_append (n : Nat) (s : String) :
    append_to n s = s ++ append_to n "" := by
  unfold append_to
  split_ifs <;> (apply String.ext; simp [String.push])

set_option maxRecDepth 8192 in
theorem append_to_repr : ∀ n, n < 256 → append_to n "" = Nat.repr n := by decide

theorem foldl_semi : ∀ (rest : List Nat) (a : String),
    rest.foldl (fun acc code => acc ++ ";" ++ Nat.repr code) a =
      a ++ semiTail (rest.map Nat.repr)
  | [], a => by simp [semiTail]
  | r :: rs, a => by
    show List.foldl _ (a ++ ";" ++ Nat.repr r) rs = _
    rw [foldl_semi rs (a ++ ";" ++ Nat.repr r)]
    simp only [List.map_cons, semiTail]
    rw [String.append_assoc, String.append_assoc, String.append_assoc]

theorem sepJoin_cons : ∀ (xs : List String) (x : String),
    sepJoin (x :: xs) = x ++ semiTail xs
  | [], x => by simp [sepJoin, semiTail]
  | y :: ys, x => by
    show x ++ ";" ++ sepJoin (y :: ys) = _
    rw [sepJoin_cons ys y]
    simp only [semiTail]
    rw [String.append_assoc, ← String.append_assoc ";" y, ← String.append_assoc]

theorem dropWhile_replicate_append (c : Char) :
    ∀ (i : Nat) (l : List Char),
      List.dropWhile (· = c) (List.replicate i c ++ l) = List.dropWhile (· = c) l
  | 0, l => rfl
  | i + 1, l => by
    rw [List.replicate_succ, List.cons_append, List.dropWhile_cons]
    simp only [decide_True]
    exact dropWhile_replicate_append c i l

/-! ### Claim theorems -/

/-- Claim C1, counterexample: compiling `\x7b+Bold&name-Dim\x7d` does not
produce `ESC[1m` `\x7bname\x7d` `ESC[22m`: the escape sequence reopened
after the passthrough carries a leading empty code position, so the
actual output ends in `ESC[;22m`. -/
theorem claim_c1_counterexample :
    parse_string "\x7b+Bold&name-Dim\x7d".data =
      PResult.ok "\x1b[1m\x7bname\x7d\x1b[;22m" ∧
    ("\x1b[1m\x7bname\x7d\x1b[;22m" : String) ≠ "\x1b[1m\x7bname\x7d\x1b[22m" := by
  constructor
  · decide
  · decide

/-- Claim C1 as amended: compiling `\x7b+Bold&name-Dim\x7d` produces the
escape sequence `ESC[1m`, then the literal fragment `\x7bname\x7d`, then
the sequence `ESC[;22m` — the accumulated codes are flushed before the
`&` passthrough, and the escape sequence that resumes after it starts
with a leading `;` (an empty code position) before the code 22. -/
theorem claim_c1_amended :
    parse_string "\x7b+Bold&name-Dim\x7d".data =
      PResult.ok "\x1b[1m\x7bname\x7d\x1b[;22m" := by
  decide

/-- Claim C2: the `parse.rs` escape decoder fails on `\x41` (the slice
`s[end-2..=end]` includes the letter `x`, so the hex parse fails and the
whole compilation returns the invalid-escape failure), while the
`lib.rs` decoder applied to the two digits correctly yields `A`. -/
theorem claim_c2_bug_eval :
    parse_string "\\x41".data = PResult.err ∧
    lib.parse_7bit "41".data = some ('A', []) := by
  constructor
  · decide
  · decide

/-- Claim C3, counterexample: compiling the template `\x7b+Sparkle\x7d`
(an unknown style keyword) panics via `assert!` instead of returning a
failure value. -/
theorem claim_c3_counterexample :
    parse_string "\x7b+Sparkle\x7d".data =
      PResult.panicked "Invalid keyword: Sparkle" := by
  decide

/-- Claim C3 as amended: compilation returns the compiled text for valid
templates and returns the `None` failure for an invalid escape, but an
unknown style keyword, a malformed color payload, a missing close
bracket, and a backslash at end of input each abort with a panic
(an `assert!`/`expect` failure) rather than a returned failure value. -/
theorem claim_c3_amended :
    parse_string "abc".data = PResult.ok "abc" ∧
    parse_string "\\q".data = PResult.err ∧
    parse_string "\x7b+Sparkle\x7d".data =
      PResult.panicked "Invalid keyword: Sparkle" ∧
    parse_string "\x7b#f[zz]\x7d".data =
      PResult.panicked "Invalid keyword: f[zz]" ∧
    parse_string "\x7b+Bold".data = PResult.panicked "Missing close bracket" ∧
    parse_string "\\".data =
      PResult.panicked "Unwrapping char following escape failed, should never fail" := by
  refine ⟨by decide, by decide, by decide, by decide, by decide, by decide⟩

/-- Claim C4, counterexample: compiling the two-character template
`\x7b\x7b` yields the two-character text `\x7b\x7b`, not the single
literal character `\x7b`. -/
theorem claim_c4_counterexample :
    parse_string "\x7b\x7b".data = PResult.ok "\x7b\x7b" ∧
    PResult.ok ("\x7b\x7b" : String) ≠ PResult.ok ("\x7b" : String) := by
  constructor
  · decide
  · decide

/-- Claim C4 as amended: compiling `\x7b\x7b` yields the doubled text
`\x7b\x7b` and compiling `\x7d\x7d` yields `\x7d\x7d` (the brace-escape
forms are re-emitted verbatim for the downstream formatter rather than
collapsed), and every template containing no brace and no backslash
compiles to itself unchanged. -/
theorem claim_c4_amended :
    parse_string "\x7b\x7b".data = PResult.ok "\x7b\x7b" ∧
    parse_string "\x7d\x7d".data = PResult.ok "\x7d\x7d" ∧
    ∀ t : List Char, (∀ c ∈ t, c ≠ '\\' ∧ c ≠ '{' ∧ c ≠ '}') →
      parse_string t = PResult.ok (String.mk t) := by
  refine ⟨by decide, by decide, ?_⟩
  intro t ht
  unfold parse_string
  rw [psLoop_plain t (t.length + 1) t.enum ""
    (by rw [List.enum_length]; omega)
    (fun p hp => ht p.2 (snd_mem_of_mem_enum hp))]
  apply congrArg PResult.ok
  apply String.ext
  have : t.enum.map Prod.snd = t := enumFrom_map_snd 0 t
  simp [this]

/-- Witness for the amended claim C4 at a concrete plain template. -/
theorem claim_c4_witness :
    parse_string "hello world".data = PResult.ok (String.mk "hello world".data) :=
  claim_c4_amended.2.2 "hello world".data (by decide)

/-- Claim C5, counterexample: the unterminated group `\x7bname` (opened
by `\x7b`, whose matching `\x7d` never occurs) does not fail: the
remaining text is emitted verbatim and compilation succeeds. -/
theorem claim_c5_counterexample :
    parse_string "\x7bname".data = PResult.ok "\x7bname" := by
  decide

theorem next_delim_none (p : Nat × Char)
    (h : p.2 ≠ '+' ∧ p.2 ≠ '-' ∧ p.2 ≠ '#' ∧ p.2 ≠ '&' ∧ p.2 ≠ '}') :
    next_delim p = none := by
  simp only [next_delim]
  split <;> simp_all

theorem findMapDelim_none :
    ∀ l : List (Nat × Char), (∀ p ∈ l, next_delim p = none) → findMapDelim l = none
  | [], _ => rfl
  | p :: rest, h => by
    have hp := h p (List.mem_cons_self _ _)
    simp only [findMapDelim, hp]
    exact findMapDelim_none rest fun q hq => h q (List.mem_cons_of_mem _ hq)

/-- When the remaining iterator holds no delimiter at all, the
`parse_param` loop exhausts the input and returns unchanged state. -/
theorem paramLoop_no_delim (s : List Char) (fuel : Nat) (l : List (Nat × Char))
    (delim : Delim) (ch : Char) (i : Nat) (buf : String)
    (h : findMapDelim l = none) :
    paramLoop s (fuel + 1) l delim ch i buf = Except.ok (buf, ch, []) := by
  simp only [paramLoop, h]

/-- A directive chain whose remaining input holds no delimiter ends in
the `Missing close bracket` panic: the final delimiter character is
still the opening symbol, not `\x7d`. -/
theorem parse_param_chain_missing (s : List Char) (l : List (Nat × Char))
    (ch : Char) (i : Nat) (buf : String)
    (hch : ch = '+' ∨ ch = '-' ∨ ch = '#')
    (h : findMapDelim l = none) :
    parse_param_chain s l none ch i buf = Except.error "Missing close bracket" := by
  obtain hc | hc | hc := hch <;> subst hc <;>
    (simp only [parse_param_chain]
     rw [paramLoop_no_delim s l.length l _ _ i (buf ++ "\x1b[") h]
     simp)

/-- `parse_param` on a group opening directly with a directive symbol
enters the chain with no reserved name. -/
theorem parse_param_symbol (s : List Char) (i : Nat) (ch : Char)
    (rest : List (Nat × Char)) (buf : String)
    (h : ch = '+' ∨ ch = '-' ∨ ch = '#') :
    parse_param s ((i, ch) :: rest) buf = parse_param_chain s rest none ch i buf := by
  obtain hc | hc | hc := h <;> subst hc <;> simp [parse_param]

/-- Claim C5 as amended: an unterminated group that begins with a
directive symbol and contains no further delimiter character, such as
`\x7b+Bold`, fails with the missing close bracket panic; an unterminated
directive-symbol group that completes an invalid segment before end of
input instead fails with the invalid-keyword panic (as
`\x7b+Sparkle-Bold`, which panics with `Invalid keyword: Sparkle`); and
an unterminated group that begins with a plain name and contains no
further delimiter, or a bare `\x7b` at end of input, is emitted verbatim
and compilation succeeds. -/
theorem claim_c5_amended :
    (∀ (d : Char) (rest : List Char),
        (d = '+' ∨ d = '-' ∨ d = '#') →
        (∀ c ∈ rest, c ≠ '+' ∧ c ≠ '-' ∧ c ≠ '#' ∧ c ≠ '&' ∧ c ≠ '}') →
        parse_string ('{' :: d :: rest) = PResult.panicked "Missing close bracket") ∧
    parse_string "\x7b+Sparkle-Bold".data =
      PResult.panicked "Invalid keyword: Sparkle" ∧
    parse_string "\x7bname".data = PResult.ok "\x7bname" ∧
    parse_string "\x7b".data = PResult.ok "\x7b" := by
  refine ⟨?_, by decide, by decide, by decide⟩
  intro d rest hd hrest
  have henum : ('{' :: d :: rest).enum = (0, '{') :: (1, d) :: List.enumFrom 2 rest := by
    show List.enumFrom 0 ('{' :: d :: rest) = _
    rw [List.enumFrom_cons, List.enumFrom_cons]
  have hnone : findMapDelim (List.enumFrom 2 rest) = none := by
    apply findMapDelim_none
    intro p hp
    apply next_delim_none
    have hmem : p.2 ∈ rest := by
      have h2 := List.mem_map_of_mem Prod.snd hp
      rwa [enumFrom_map_snd] at h2
    exact hrest p.2 hmem
  unfold parse_string
  rw [henum]
  simp only [psLoop]
  obtain hc | hc | hc := hd <;> subst hc <;>
    rw [parse_param_symbol _ 1 _ (List.enumFrom 2 rest) "" (by simp),
      parse_param_chain_missing _ (List.enumFrom 2 rest) _ 1 "" (by simp) hnone]

/-- Witness for the amended claim C5 at the template `\x7b+Bold`. -/
theorem claim_c5_witness :
    parse_string ('{' :: '+' :: "Bold".data) =
      PResult.panicked "Missing close bracket" :=
  claim_c5_amended.1 '+' "Bold".data (by decide) (by decide)

/-- Claim C6: the 6-hex-digit and decimal-triple truecolor forms compile
to identical code sequences (`38;2;170;187;204`), and the 2-hex-digit
and single-decimal indexed forms compile to identical code sequences
(`48;5;31`). -/
theorem claim_c6_thm :
    parse_string "\x7b#f[aabbcc]\x7d".data =
      parse_string "\x7b#f(170,187,204)\x7d".data ∧
    parse_string "\x7b#f[aabbcc]\x7d".data =
      PResult.ok "\x1b[38;2;170;187;204m" ∧
    parse_string "\x7b#b[1f]\x7d".data = parse_string "\x7b#b(31)\x7d".data ∧
    parse_string "\x7b#b[1f]\x7d".data = PResult.ok "\x1b[48;5;31m" := by
  refine ⟨by decide, by decide, by decide, by decide⟩

/-- Claim C7: for every keyword of the add-table, compiling `\x7b+k\x7d`
yields exactly `ESC[`, the decimal rendering of the table's code for
`k`, and `m`, with no other output. -/
theorem claim_c7_thm (k : List Char) (code : Nat)
    (h : parse_add_style k = some code) :
    parse_string ('{' :: '+' :: k ++ ['}']) =
      PResult.ok ("\x1b[" ++ Nat.repr code ++ "m") := by
  unfold parse_add_style at h
  split_ifs at h with h1 h2 h3 h4 h5 h6 h7 h8 h9 <;> cases h <;> subst_vars <;> decide

/-- Witness for claim C7 at the keyword `Bold`. -/
theorem claim_c7_witness :
    parse_string ('{' :: '+' :: "Bold".data ++ ['}']) =
      PResult.ok ("\x1b[" ++ Nat.repr 1 ++ "m") :=
  claim_c7_thm "Bold".data 1 (by decide)

/-- Claim C8: `write_to` on a non-empty buffer of codes below 256 writes
exactly `ESC[`, the codes in buffer order rendered in decimal and joined
by single `;` separators with no trailing separator, then `m`, and
clears the buffer; on an empty buffer it writes nothing and the buffer
stays empty.  The decimal rendering used by the compiled-literal
emitter, `append_to`, appends exactly the standard decimal digits
(no leading zeros) of any code below 256. -/
theorem claim_c8_thm :
    (∀ b : List Nat, b ≠ [] → (∀ c ∈ b, c < 256) →
      write_to b = ("\x1b[" ++ sepJoin (b.map Nat.repr) ++ "m", [])) ∧
    write_to [] = ("", []) ∧
    (∀ n : Nat, n < 256 → ∀ s : String, append_to n s = s ++ Nat.repr n) := by
  refine ⟨?_, rfl, ?_⟩
  · intro b hne _
    match b with
    | [] => exact absurd rfl hne
    | c :: rest =>
      show ((rest.foldl _ ("\x1b[" ++ Nat.repr c)) ++ "m", []) = _
      rw [foldl_semi rest ("\x1b[" ++ Nat.repr c), List.map_cons,
        sepJoin_cons (rest.map Nat.repr) (Nat.repr c), ← String.append_assoc]
  · intro n hn s
    rw [append_to_append n s, append_to_repr n hn]

/-- Witness for claim C8 at a concrete buffer and code. -/
theorem claim_c8_witness :
    write_to [38, 5, 31] = ("\x1b[" ++ sepJoin ([38, 5, 31].map Nat.repr) ++ "m", []) ∧
    append_to 170 "" = "" ++ Nat.repr 170 :=
  ⟨claim_c8_thm.1 [38, 5, 31] (by decide) (by decide),
   claim_c8_thm.2.2 170 (by decide) ""⟩

/-- Claim C9: when a bare `\x7d` outside any group or escape is followed
by a character `c` other than `\x7d`, the parser does not fail at that
step: it pushes the literal `\x7d`, consumes and discards `c`, and
resumes at the character after `c`. -/
theorem claim_c9_thm (s : List Char) (fuel : Nat) (i j : Nat) (c : Char)
    (rest : List (Nat × Char)) (buf : String) (h : c ≠ '}') :
    psLoop s (fuel + 1) ((i, '}') :: (j, c) :: rest) buf =
      psLoop s fuel rest (buf.push '}') := by
  simp only [psLoop]
  split
  · next heq =>
    injection heq with h1 h2
    injection h1 with h3 h4
    exact absurd h4 h
  · next heq =>
    injection heq with h1 h2
    subst h2
    rfl
  · next heq => cases heq

/-- Witness for claim C9 at the template `\x7da`. -/
theorem claim_c9_witness :
    psLoop "\x7da".data 2 [(0, '}'), (1, 'a')] "" =
      psLoop "\x7da".data 1 [] ("".push '}') :=
  claim_c9_thm "\x7da".data 1 0 1 'a' [] "" (by decide)


/-- Reduction of `unwrap_string` on a literal that starts with `r`. -/
theorem unwrap_string_r (rest : List Char) :
    unwrap_string ('r' :: rest) =
      (stripFirstChar '"' (trimMatches '#' rest)).bind fun t2 =>
        (stripLastChar '"' t2).map fun body =>
          UnwrappedLiteral.rawString body
            ((rest.length - (trimMatches '#' rest).length) / 2) := rfl

/-- Claim C10: re-wrapping any raw string body with any number of hash
delimiters and unwrapping the result recovers exactly the original body
and hash count. -/
theorem claim_c10_thm (s : List Char) (i : Nat) :
    unwrap_string (parse_raw_string s i) = some (UnwrappedLiteral.rawString s i) := by
  have harg : parse_raw_string s i =
      'r' :: (List.replicate i '#' ++ ('"' :: (s ++ ('"' :: List.replicate i '#')))) := by
    simp [parse_raw_string]
  have hdrop : ∀ l : List Char,
      List.dropWhile (· = '#') (List.replicate i '#' ++ ('"' :: l)) = '"' :: l := by
    intro l
    rw [dropWhile_replicate_append '#' i, List.dropWhile_cons]
    simp
  have htrim :
      trimMatches '#'
        (List.replicate i '#' ++ ('"' :: (s ++ ('"' :: List.replicate i '#')))) =
      '"' :: (s ++ ['"']) := by
    unfold trimMatches
    rw [hdrop]
    have hrev : ('"' :: (s ++ ('"' :: List.replicate i '#'))).reverse =
        List.replicate i '#' ++ ('"' :: (s.reverse ++ ['"'])) := by
      simp [List.reverse_cons, List.reverse_append, List.append_assoc]
    rw [hrev, hdrop]
    simp
  have hlen :
      (List.replicate i '#' ++ ('"' :: (s ++ ('"' :: List.replicate i '#')))).length -
        ('"' :: (s ++ ['"'])).length = 2 * i := by
    simp
    omega
  rw [harg, unwrap_string_r, htrim, hlen]
  have hfirst : stripFirstChar '"' ('"' :: (s ++ ['"'])) = some (s ++ ['"']) := by
    simp [stripFirstChar]
  rw [hfirst]
  have hlast : stripLastChar '"' (s ++ ['"']) = some s := by
    unfold stripLastChar
    rw [List.getLast?_concat, List.dropLast_concat]
    simp
  have h2 : 2 * i / 2 = i := by omega
  simp [hlast, h2]
